import Mathlib

/-!
Shallow embedding of `src/iokernel/dpdk.c` (the Shenango I/O-kernel
dataplane) and proofs about its packet-dispatch engine, client registry,
control-channel loop and shared-memory pool creation.

Machine integers are embedded as `Nat`; sizes that live in headers outside
this repository (`sizeof(struct rx_net_hdr)`, `INGRESS_MBUF_SHM_SIZE`,
mempool header/trailer sizes) are parameters of the corresponding
definitions.
-/

/-! ## Ethernet addresses (rte_ether) -/

/-- The C `struct ether_addr`: the six octets of a hardware address, most
significant first. -/
structure EtherAddr where
  addr_bytes : List Nat
deriving DecidableEq, Repr

/-- The constant `ETHER_ADDR_LEN`. -/
def ETHER_ADDR_LEN : Nat := 6

/-- Embeds `is_unicast_ether_addr`: the group (multicast) bit — bit 0 of the first
octet — is clear. -/
def is_unicast_ether_addr (a : EtherAddr) : Bool :=
  (a.addr_bytes.headD 0) % 2 == 0

/-- Embeds `is_broadcast_ether_addr`: all six octets are `0xff`. -/
def is_broadcast_ether_addr (a : EtherAddr) : Bool :=
  a.addr_bytes == List.replicate ETHER_ADDR_LEN 255

/-! ## Mbufs and the receive preamble -/

/-- The DPDK mbuf offload flag `PKT_RX_IP_CKSUM_BAD` (bit 4). -/
def PKT_RX_IP_CKSUM_BAD : Nat := 2 ^ 4

/-- The DPDK mbuf offload flag `PKT_RX_IP_CKSUM_GOOD` (bit 7). -/
def PKT_RX_IP_CKSUM_GOOD : Nat := 2 ^ 7

/-- The mask `PKT_RX_IP_CKSUM_MASK` = `PKT_RX_IP_CKSUM_BAD | PKT_RX_IP_CKSUM_GOOD`. -/
def PKT_RX_IP_CKSUM_MASK : Nat := PKT_RX_IP_CKSUM_BAD + PKT_RX_IP_CKSUM_GOOD

/-- The slice of `struct rte_mbuf` state that `dpdk.c` reads and writes:
packet length, driver offload flags, headroom in front of the data pointer,
the reference count, and the destination MAC parsed from the frame header. -/
structure Mbuf where
  pkt_len : Nat
  ol_flags : Nat
  headroom : Nat
  refcnt : Nat
  dst_addr : EtherAddr
deriving DecidableEq, Repr

/-- The checksum-status enumeration of the receive preamble
(`CHECKSUM_TYPE_*`, declared in `iokernel/queue.h` outside this repo). -/
inductive ChecksumType where
  | CHECKSUM_TYPE_NEEDED
  | CHECKSUM_TYPE_UNNECESSARY
deriving DecidableEq, Repr

/-- The receive preamble `struct rx_net_hdr`, prepended to every buffer
handed to a client. -/
structure RxNetHdr where
  len : Nat
  rss_hash : Nat
  csum_type : ChecksumType
  csum : Nat
deriving DecidableEq, Repr

/-- Embeds `rte_pktmbuf_prepend`: grows the packet at the front by `size` bytes;
the C returns `NULL` when the headroom is too small, embedded as `none`. -/
def rte_pktmbuf_prepend (buf : Mbuf) (size : Nat) : Option Mbuf :=
  if size ≤ buf.headroom then
    some { buf with pkt_len := buf.pkt_len + size, headroom := buf.headroom - size }
  else
    none

/-- Embeds `dpdk_prepend_rx_preamble` (dpdk.c lines 269-288), parametrized by
`hdrSize = sizeof(struct rx_net_hdr)`. After the prepend, `len` is the new
packet length minus the preamble size, `rss_hash` and `csum` are zero, and
`csum_type` is UNNECESSARY exactly when the masked offload flags equal
`PKT_RX_IP_CKSUM_GOOD`. A failed prepend is only guarded by `RTE_ASSERT` in
the C, embedded as `none`. -/
def dpdk_prepend_rx_preamble (hdrSize : Nat) (buf : Mbuf) : Option (RxNetHdr × Mbuf) :=
  match rte_pktmbuf_prepend buf hdrSize with
  | none => none
  | some buf1 =>
    let masked_ol_flags := buf1.ol_flags &&& PKT_RX_IP_CKSUM_MASK
    some ({ len := buf1.pkt_len - hdrSize,
            rss_hash := 0,
            csum_type :=
              if masked_ol_flags = PKT_RX_IP_CKSUM_GOOD then
                ChecksumType.CHECKSUM_TYPE_UNNECESSARY
              else
                ChecksumType.CHECKSUM_TYPE_NEEDED,
            csum := 0 },
          buf1)

/-! ## Processes and enqueueing to a runtime -/

/-- The slice of `struct proc` the dataplane uses: an identity standing for
the descriptor's address (pointers are compared in `dpdk_remove_client`),
the MAC address, and the thread count. -/
structure Proc where
  pid : Nat
  mac : EtherAddr
  thread_count : Nat
deriving DecidableEq, Repr

/-- Environment of one `dpdk_rx_burst` packet iteration: `rands k` is the
value of the k-th `rand()` call and `rxqOk pid t` tells whether `lrpc_send`
to thread `t` of process `pid` succeeds (its rx queue has room). -/
structure RxEnv where
  rands : Nat → Nat
  rxqOk : Nat → Nat → Bool

/-- The thread choice `rand() % p->thread_count` of
`dpdk_enqueue_to_runtime`; `% 0` is C undefined behavior, embedded as
`none`. -/
def dpdk_choose_thread (r thread_count : Nat) : Option Nat :=
  if thread_count = 0 then none else some (r % thread_count)

/-- Embeds `dpdk_enqueue_to_runtime` (dpdk.c lines 293-304): picks a random thread
of `p` and attempts a non-blocking `lrpc_send` of the shared-memory
reference; returns whether the send succeeded. `callIdx` indexes the
`rand()` call within the current packet iteration. -/
def dpdk_enqueue_to_runtime (env : RxEnv) (callIdx : Nat) (p : Proc) : Option Bool :=
  match dpdk_choose_thread (env.rands callIdx) p.thread_count with
  | none => none
  | some t => some (env.rxqOk p.pid t)

/-! ## The MAC-to-process hash table (interface model of DPDK's rte_hash) -/

/-- Interface model of `rte_hash_lookup_data`: first binding of `key`, if any. -/
def rte_hash_lookup_data (h : List (EtherAddr × Proc)) (key : EtherAddr) : Option Proc :=
  match h with
  | [] => none
  | (k, v) :: rest => if k = key then some v else rte_hash_lookup_data rest key

/-- The constant `MAC_TO_PROC_ENTRIES` (dpdk.c line 64): entry budget of the
MAC hash table created in `dpdk_init`. -/
def MAC_TO_PROC_ENTRIES : Nat := 128

/-- Replace the data of the first binding of `key`; helper of the insert
model below. -/
def hashUpdate (h : List (EtherAddr × Proc)) (key : EtherAddr) (v : Proc) :
    List (EtherAddr × Proc) :=
  match h with
  | [] => []
  | (k, w) :: rest =>
    if k = key then (k, v) :: rest else (k, w) :: hashUpdate rest key v

/-- Interface model of `rte_hash_add_key_data`: when the key is present its
data is updated in place (ret ≥ 0); an absent key is inserted when the
table's fixed entry budget has room and `alloc_ok` reports no internal
allocation failure; otherwise the call returns a negative error and the
table is unchanged. The second component is `ret ≥ 0`. -/
def rte_hash_add_key_data (h : List (EtherAddr × Proc)) (key : EtherAddr) (v : Proc)
    (alloc_ok : Bool) : List (EtherAddr × Proc) × Bool :=
  if (rte_hash_lookup_data h key).isSome then
    (hashUpdate h key v, true)
  else if alloc_ok ∧ h.length < MAC_TO_PROC_ENTRIES then
    (h ++ [(key, v)], true)
  else
    (h, false)

/-- Interface model of `rte_hash_del_key`: remove the first binding of `key`. -/
def rte_hash_del_key (h : List (EtherAddr × Proc)) (key : EtherAddr) :
    List (EtherAddr × Proc) :=
  match h with
  | [] => []
  | (k, w) :: rest =>
    if k = key then rest else (k, w) :: rte_hash_del_key rest key

/-! ## The per-packet dispatch of dpdk_rx_burst -/

/-- Observable effects of processing one received buffer in `dpdk_rx_burst`:
how many times `rte_pktmbuf_free(buf)` ran, how many warnings were logged,
the number of successful `lrpc_send`s (`n_sent`), how often the preamble was
prepended, and the buffer's reference count when the iteration ends. -/
structure PktEffects where
  frees : Nat
  warns : Nat
  n_sent : Nat
  prepends : Nat
  refcnt : Nat
deriving DecidableEq, Repr

/-- The broadcast fan-out loop of `dpdk_rx_burst` (lines 359-367): attempt
`dpdk_enqueue_to_runtime` for every registered client in turn, counting
successes in `n_sent`; `j` is the index of the next client (and of its
`rand()` call). `none` on the `% 0` undefined behavior. -/
def broadcast_fanout (env : RxEnv) : List Proc → Nat → Nat → Option Nat
  | [], _, n_sent => some n_sent
  | p :: rest, j, n_sent =>
    match dpdk_enqueue_to_runtime env j p with
    | none => none
    | some true => broadcast_fanout env rest (j + 1) (n_sent + 1)
    | some false => broadcast_fanout env rest (j + 1) n_sent

/-- The body of the per-packet loop of `dpdk_rx_burst` (dpdk.c lines
327-380), evaluated on one buffer against the current registry. Returns
`none` when the C hits undefined behavior (prepend past the `RTE_ASSERT`,
or `% 0` in thread selection). -/
def dpdk_rx_one (hdrSize : Nat) (mac_to_proc : List (EtherAddr × Proc))
    (clients : List Proc) (env : RxEnv) (buf : Mbuf) : Option PktEffects :=
  if is_unicast_ether_addr buf.dst_addr then
    match rte_hash_lookup_data mac_to_proc buf.dst_addr with
    | none =>
      some { frees := 1, warns := 1, n_sent := 0, prepends := 0, refcnt := buf.refcnt }
    | some p =>
      match dpdk_prepend_rx_preamble hdrSize buf with
      | none => none
      | some (_, buf1) =>
        match dpdk_enqueue_to_runtime env 0 p with
        | none => none
        | some true =>
          some { frees := 0, warns := 0, n_sent := 1, prepends := 1, refcnt := buf1.refcnt }
        | some false =>
          some { frees := 1, warns := 1, n_sent := 0, prepends := 1, refcnt := buf1.refcnt }
  else if is_broadcast_ether_addr buf.dst_addr ∧ 0 < clients.length then
    match dpdk_prepend_rx_preamble hdrSize buf with
    | none => none
    | some (_, buf1) =>
      match broadcast_fanout env clients 0 0 with
      | none => none
      | some n_sent =>
        if n_sent = 0 then
          some { frees := 1, warns := clients.length, n_sent := 0, prepends := 1,
                 refcnt := buf1.refcnt }
        else
          some { frees := 0, warns := clients.length - n_sent, n_sent := n_sent,
                 prepends := 1, refcnt := buf1.refcnt + (n_sent - 1) }
  else
    some { frees := 1, warns := 1, n_sent := 0, prepends := 0, refcnt := buf.refcnt }

/-! ## The client registry (dpdk_add_client / dpdk_remove_client) -/

/-- The dataplane's registry state: the used prefix of the `clients` array
(`clients[0 .. nr_clients)`, `nr_clients = clients.length`), the
`mac_to_proc` hash table, the `CONTROL_PLANE_REMOVE_CLIENT` notifications
pushed to the control plane (recorded as attempted; a full channel only
logs), and counters of logged warnings and errors. -/
structure DpState where
  clients : List Proc
  mac_to_proc : List (EtherAddr × Proc)
  removals_sent : List Nat
  warns : Nat
  errs : Nat
deriving DecidableEq, Repr

/-- The dataplane state right after `dpdk_init`: no clients, empty table. -/
def dpdk_init_state : DpState :=
  { clients := [], mac_to_proc := [], removals_sent := [], warns := 0, errs := 0 }

/-- Embeds `dpdk_add_client` (dpdk.c lines 386-395): append to the client
array unconditionally, then insert the MAC key; a failed insert
(`ret < 0`, lines 392-394) only logs an error, leaving the list and the
table out of step. `alloc_ok` is this call's internal-allocation oracle. -/
def dpdk_add_client (s : DpState) (p : Proc) (alloc_ok : Bool) : DpState :=
  let r := rte_hash_add_key_data s.mac_to_proc p.mac p alloc_ok
  { s with clients := s.clients ++ [p],
           mac_to_proc := r.1,
           errs := s.errs + (if r.2 then 0 else 1) }

/-- The linear scan `for (i = 0; i < nr_clients; i++) if (clients[i] == p)
break;` — index of the first occurrence of `p`, or the length when absent. -/
def findClientIdx (cl : List Proc) (p : Proc) : Nat :=
  match cl with
  | [] => 0
  | q :: rest => if q = p then 0 else findClientIdx rest p + 1

/-- The swap-remove `clients[i] = clients[nr_clients - 1]; nr_clients--;` of the
element at index `i`. -/
def swapRemove (cl : List Proc) (i : Nat) : List Proc :=
  match cl.getLast? with
  | none => cl
  | some last => (cl.set i last).dropLast

/-- Embeds `dpdk_remove_client` (dpdk.c lines 401-427): linear scan for `p`; if
absent, `WARN()` and return. Otherwise swap-remove it from the client
array, delete its MAC key (a failed delete only logs an error), and notify
the control plane of the removal. -/
def dpdk_remove_client (s : DpState) (p : Proc) : DpState :=
  let i := findClientIdx s.clients p
  if i = s.clients.length then
    { s with warns := s.warns + 1 }
  else
    { s with
      clients := swapRemove s.clients i,
      mac_to_proc := rte_hash_del_key s.mac_to_proc p.mac,
      errs := s.errs +
        (if (rte_hash_lookup_data s.mac_to_proc p.mac).isSome then 0 else 1),
      removals_sent := s.removals_sent ++ [p.pid] }

/-- A registry mutation requested over the control channel. -/
inductive RegOp where
  | addClient (p : Proc) (alloc_ok : Bool)
  | removeClient (p : Proc)
deriving DecidableEq, Repr

/-- One registry mutation. -/
def regStep (s : DpState) : RegOp → DpState
  | RegOp.addClient p alloc_ok => dpdk_add_client s p alloc_ok
  | RegOp.removeClient p => dpdk_remove_client s p

/-- A sequence of registry mutations, oldest first. -/
def regExec (s : DpState) : List RegOp → DpState
  | [] => s
  | op :: ops => regExec (regStep s op) ops

/-- Side condition on a mutation sequence: every added process brings a MAC
address not currently registered AND its hash insert succeeds. (The control
plane assigns each client a fresh address; nothing in `dpdk_add_client`
checks either condition, and a failed insert leaves the list and the table
out of step.) -/
def freshAdds (s : DpState) : List RegOp → Bool
  | [] => true
  | op :: ops =>
    (match op with
     | RegOp.addClient p alloc_ok =>
       decide (p.mac ∉ s.clients.map Proc.mac) &&
         (rte_hash_add_key_data s.mac_to_proc p.mac p alloc_ok).2
     | RegOp.removeClient _ => true) && freshAdds (regStep s op) ops

/-! ## The control-channel drain loop (dpdk_rx_control_lrpcs) -/

/-- The constant `CONTROL_BURST_SIZE`. -/
def CONTROL_BURST_SIZE : Nat := 8

/-- Modelled from the spec: the inbound command kinds `DATAPLANE_ADD_CLIENT`
and `DATAPLANE_REMOVE_CLIENT` are declared in a header outside this
repository; only their distinctness matters. -/
def DATAPLANE_ADD_CLIENT : Nat := 1

/-- Modelled from the spec: see `DATAPLANE_ADD_CLIENT`. -/
def DATAPLANE_REMOVE_CLIENT : Nat := 2

/-- A control-channel message: the 64-bit command and the `struct proc *`
payload it carries (embedded as the descriptor itself). -/
structure LrpcMsg where
  cmd : Nat
  payload : Proc
deriving DecidableEq, Repr

/-- The switch of `dpdk_rx_control_lrpcs` on one received message;
`alloc_ok` is the internal-allocation oracle of a resulting hash insert. -/
def control_dispatch (s : DpState) (m : LrpcMsg) (alloc_ok : Bool) : DpState :=
  if m.cmd = DATAPLANE_ADD_CLIENT then dpdk_add_client s m.payload alloc_ok
  else if m.cmd = DATAPLANE_REMOVE_CLIENT then dpdk_remove_client s m.payload
  else { s with errs := s.errs + 1 }

/-- The loop of `dpdk_rx_control_lrpcs` (dpdk.c lines 439-456). The C
condition is `lrpc_recv(...) && n_rx < CONTROL_BURST_SIZE`: `lrpc_recv`
pops a message from the channel BEFORE the batch bound is tested, so a
message popped once `n_rx` has reached the bound is discarded without being
dispatched. The channel is the list of pending messages, oldest first;
returns the remaining channel, the updated state, and the final `n_rx`. -/
def dpdk_rx_control_loop (alloc_ok : Nat → Bool) :
    List LrpcMsg → DpState → Nat → List LrpcMsg × DpState × Nat
  | [], s, n_rx => ([], s, n_rx)
  | m :: rest, s, n_rx =>
    if n_rx < CONTROL_BURST_SIZE then
      dpdk_rx_control_loop alloc_ok rest (control_dispatch s m (alloc_ok n_rx)) (n_rx + 1)
    else
      (rest, s, n_rx)

/-- Embeds `dpdk_rx_control_lrpcs` (dpdk.c lines 432-457), starting at
`n_rx = 0`; `alloc_ok k` is the allocation oracle of the k-th dispatch. -/
def dpdk_rx_control_lrpcs (alloc_ok : Nat → Bool) (chan : List LrpcMsg) (s : DpState) :
    List LrpcMsg × DpState × Nat :=
  dpdk_rx_control_loop alloc_ok chan s 0

/-! ## The clients array at the store level (for the capacity precondition) -/

/-- Modelled from the spec: `IOKERNEL_MAX_PROC`, the capacity of the static
`clients` array, is declared in a header outside this repository; the spec
fixes it at 128. -/
def IOKERNEL_MAX_PROC : Nat := 128

/-- The static array `struct proc *clients[IOKERNEL_MAX_PROC]` together
with its fill count `nr_clients`, at the level of the backing store. -/
structure ClientArray where
  slots : Fin IOKERNEL_MAX_PROC → Option Proc
  nr_clients : Nat

/-- The append `clients[nr_clients++] = p;` of `dpdk_add_client`, at the
level of the backing array. The C performs no capacity check; the write
past the end when the array is full is undefined behavior, embedded as
`none`. -/
def dpdk_add_client_store (a : ClientArray) (p : Proc) : Option ClientArray :=
  if h : a.nr_clients < IOKERNEL_MAX_PROC then
    some { slots := fun i => if i = ⟨a.nr_clients, h⟩ then some p else a.slots i,
           nr_clients := a.nr_clients + 1 }
  else
    none

/-! ## Pool creation in shared memory (dpdk_pktmbuf_pool_create_in_shm) -/

/-- The DPDK constant `RTE_MBUF_PRIV_ALIGN`: required alignment of the mbuf private
area. -/
def RTE_MBUF_PRIV_ALIGN : Nat := 8

/-- The macro `RTE_ALIGN(v, a)`: `v` rounded up to a multiple of `a`. -/
def RTE_ALIGN (v a : Nat) : Nat := ((v + a - 1) / a) * a

/-- The constant `PGSIZE_2MB`. -/
def PGSIZE_2MB : Nat := 2 ^ 21

/-- Interface model of `rte_mempool_xmem_size` (DPDK): memory needed to hold `elt_num` objects
of `total_elt_sz` bytes each when objects may not straddle a
`2^pg_shift`-byte page boundary. -/
def rte_mempool_xmem_size (elt_num total_elt_sz pg_shift : Nat) : Nat :=
  if total_elt_sz = 0 then 0
  else if pg_shift = 0 then total_elt_sz * elt_num
  else
    let pg_sz := 2 ^ pg_shift
    let obj_per_page := pg_sz / total_elt_sz
    if obj_per_page = 0 then RTE_ALIGN total_elt_sz pg_sz * elt_num
    else ((elt_num + obj_per_page - 1) / obj_per_page) * pg_sz

/-- Sizes that `dpdk_pktmbuf_pool_create_in_shm` combines; those fixed by
headers outside this repository (`sizeof(struct rte_mbuf)`, the mempool
header/trailer sizes, `INGRESS_MBUF_SHM_SIZE`) are carried as parameters. -/
structure PoolParams where
  n : Nat
  priv_size : Nat
  data_room_size : Nat
  mbuf_struct_size : Nat
  header_size : Nat
  trailer_size : Nat
  shm_capacity : Nat
deriving DecidableEq, Repr

/-- Success/failure oracle for the external calls made by
`dpdk_pktmbuf_pool_create_in_shm`. -/
structure PoolEnv where
  create_empty_ok : Bool
  set_ops_ok : Bool
  map_shm_ok : Bool
  populate_ok : Bool
deriving DecidableEq, Repr

/-- Resource trace of one `dpdk_pktmbuf_pool_create_in_shm` call: whether it
returned a pool, whether `rte_mempool_create_empty` produced a pool object
and whether `rte_mempool_free` destroyed it, and how many times the shared
region was mapped and unmapped. -/
structure PoolResult where
  ok : Bool
  pool_created : Bool
  pool_freed : Bool
  maps : Nat
  unmaps : Nat
deriving DecidableEq, Repr

/-- The element size `sizeof(struct rte_mbuf) + priv_size + data_room_size`
padded by the mempool header and trailer (dpdk.c lines 108-109 and 126). -/
def pool_total_elt_sz (pp : PoolParams) : Nat :=
  pp.header_size + (pp.mbuf_struct_size + pp.priv_size + pp.data_room_size) +
    pp.trailer_size

/-- Embeds `dpdk_pktmbuf_pool_create_in_shm` (dpdk.c lines 92-163) as its resource
trace: alignment check, `rte_mempool_create_empty`, ops setup, the
capacity check `len > INGRESS_MBUF_SHM_SIZE` with
`len = rte_mempool_xmem_size(n, total_elt_sz, bsf(2MB) = 21)`, the shared
mapping, and population; each `goto fail_*` releases what was acquired. -/
def dpdk_pktmbuf_pool_create_in_shm (env : PoolEnv) (pp : PoolParams) : PoolResult :=
  if RTE_ALIGN pp.priv_size RTE_MBUF_PRIV_ALIGN ≠ pp.priv_size then
    { ok := false, pool_created := false, pool_freed := false, maps := 0, unmaps := 0 }
  else if env.create_empty_ok = false then
    { ok := false, pool_created := false, pool_freed := false, maps := 0, unmaps := 0 }
  else if env.set_ops_ok = false then
    { ok := false, pool_created := true, pool_freed := true, maps := 0, unmaps := 0 }
  else
    let len := rte_mempool_xmem_size pp.n (pool_total_elt_sz pp) 21
    if pp.shm_capacity < len then
      { ok := false, pool_created := true, pool_freed := true, maps := 0, unmaps := 0 }
    else if env.map_shm_ok = false then
      { ok := false, pool_created := true, pool_freed := true, maps := 0, unmaps := 0 }
    else if env.populate_ok = false then
      { ok := false, pool_created := true, pool_freed := true, maps := 1, unmaps := 1 }
    else
      { ok := true, pool_created := true, pool_freed := false, maps := 1, unmaps := 0 }

/-! ## Helper lemmas: classification and fan-out -/

lemma is_broadcast_not_unicast {a : EtherAddr} (h : is_broadcast_ether_addr a = true) :
    is_unicast_ether_addr a = false := by
  have ha : a.addr_bytes = List.replicate ETHER_ADDR_LEN 255 := by
    simpa [is_broadcast_ether_addr] using h
  simp [is_unicast_ether_addr, ha]
  decide

lemma enqueue_eq_of_pos {env : RxEnv} {j : Nat} {p : Proc}
    (hp : 0 < p.thread_count) :
    dpdk_enqueue_to_runtime env j p =
      some (env.rxqOk p.pid (env.rands j % p.thread_count)) := by
  unfold dpdk_enqueue_to_runtime dpdk_choose_thread
  rw [if_neg (Nat.pos_iff_ne_zero.mp hp)]

lemma broadcast_fanout_isSome (env : RxEnv) (cl : List Proc) :
    ∀ j acc : Nat, (∀ p ∈ cl, 0 < p.thread_count) →
      ∃ n, broadcast_fanout env cl j acc = some n := by
  induction cl with
  | nil => exact fun j acc _ => ⟨acc, rfl⟩
  | cons p rest ih =>
    intro j acc ht
    have hp : 0 < p.thread_count := ht p (by simp)
    have hrest : ∀ q ∈ rest, 0 < q.thread_count := fun q hq => ht q (by simp [hq])
    unfold broadcast_fanout
    rw [enqueue_eq_of_pos hp]
    cases env.rxqOk p.pid (env.rands j % p.thread_count) with
    | true => simpa using ih (j + 1) (acc + 1) hrest
    | false => simpa using ih (j + 1) acc hrest

/-- C1: for a broadcast frame dispatched with at least one registered
client, writing N for the number of successful enqueues: if N = 0 the
buffer is freed exactly once; if N > 0 the dispatcher does not free the
buffer and its reference count after the fan-out equals N (the reference
count was adjusted upward by N - 1 from the single implicit reference). -/
theorem broadcast_refcount_matches_sends
    (hdrSize : Nat) (tab : List (EtherAddr × Proc)) (clients : List Proc)
    (env : RxEnv) (buf : Mbuf)
    (hb : is_broadcast_ether_addr buf.dst_addr = true)
    (hc : 0 < clients.length)
    (hh : hdrSize ≤ buf.headroom)
    (ht : ∀ p ∈ clients, 0 < p.thread_count)
    (hr : buf.refcnt = 1) :
    ∃ eff, dpdk_rx_one hdrSize tab clients env buf = some eff ∧
      (eff.n_sent = 0 → eff.frees = 1) ∧
      (0 < eff.n_sent → eff.frees = 0 ∧ eff.refcnt = eff.n_sent) := by
  obtain ⟨n, hn⟩ := broadcast_fanout_isSome env clients 0 0 ht
  have hu := is_broadcast_not_unicast hb
  unfold dpdk_rx_one
  rw [if_neg (by simp [hu]), if_pos ⟨hb, hc⟩]
  unfold dpdk_prepend_rx_preamble rte_pktmbuf_prepend
  rw [if_pos hh]
  simp only [hn]
  by_cases h0 : n = 0
  · subst h0
    rw [if_pos rfl]
    exact ⟨_, rfl, fun _ => rfl, by simp⟩
  · rw [if_neg h0]
    refine ⟨_, rfl, ?_, ?_⟩
    · intro h; exact absurd h h0
    · intro _
      refine ⟨rfl, ?_⟩
      show buf.refcnt + (n - 1) = n
      omega

/-- C10: a broadcast frame arriving while zero clients are registered falls
through to the unhandled-classification branch: the buffer is freed exactly
once, one warning is logged, and there is no enqueue attempt, no preamble,
and no reference-count adjustment. -/
theorem broadcast_without_clients_dropped
    (hdrSize : Nat) (tab : List (EtherAddr × Proc)) (env : RxEnv) (buf : Mbuf)
    (hb : is_broadcast_ether_addr buf.dst_addr = true) :
    dpdk_rx_one hdrSize tab [] env buf =
      some { frees := 1, warns := 1, n_sent := 0, prepends := 0, refcnt := buf.refcnt } := by
  have hu := is_broadcast_not_unicast hb
  unfold dpdk_rx_one
  rw [if_neg (by simp [hu]), if_neg (by simp)]

/-- C9: `dpdk_enqueue_to_runtime` silently requires `p->thread_count ≥ 1`:
then the chosen thread index `rand() % thread_count` is in bounds and the
send is attempted on that thread; with `thread_count = 0` the modulo is a
division by zero (C undefined behavior). -/
theorem enqueue_thread_count_precondition
    (env : RxEnv) (callIdx : Nat) (p : Proc) :
    (0 < p.thread_count →
      ∃ t, dpdk_choose_thread (env.rands callIdx) p.thread_count = some t ∧
        t < p.thread_count ∧
        dpdk_enqueue_to_runtime env callIdx p = some (env.rxqOk p.pid t)) ∧
    (p.thread_count = 0 →
      dpdk_choose_thread (env.rands callIdx) p.thread_count = none ∧
      dpdk_enqueue_to_runtime env callIdx p = none) := by
  constructor
  · intro hp
    refine ⟨env.rands callIdx % p.thread_count, ?_, Nat.mod_lt _ hp, enqueue_eq_of_pos hp⟩
    unfold dpdk_choose_thread
    rw [if_neg (Nat.pos_iff_ne_zero.mp hp)]
  · intro h0
    unfold dpdk_enqueue_to_runtime dpdk_choose_thread
    rw [h0]
    simp

/-- C5: every drop path of the per-packet dispatch — unregistered unicast
destination, failed unicast enqueue, or a frame that is neither unicast nor
broadcast — frees the buffer exactly once and performs zero successful
channel sends. -/
theorem dropped_packet_freed_once_no_sends
    (hdrSize : Nat) (tab : List (EtherAddr × Proc)) (clients : List Proc)
    (env : RxEnv) (buf : Mbuf)
    (h : (is_unicast_ether_addr buf.dst_addr = true ∧
            rte_hash_lookup_data tab buf.dst_addr = none) ∨
         (∃ p, is_unicast_ether_addr buf.dst_addr = true ∧
            rte_hash_lookup_data tab buf.dst_addr = some p ∧
            hdrSize ≤ buf.headroom ∧
            dpdk_enqueue_to_runtime env 0 p = some false) ∨
         (is_unicast_ether_addr buf.dst_addr = false ∧
            is_broadcast_ether_addr buf.dst_addr = false)) :
    ∃ eff, dpdk_rx_one hdrSize tab clients env buf = some eff ∧
      eff.frees = 1 ∧ eff.n_sent = 0 := by
  rcases h with ⟨hu, hl⟩ | ⟨p, hu, hl, hh, he⟩ | ⟨hu, hb⟩
  · refine ⟨{ frees := 1, warns := 1, n_sent := 0, prepends := 0,
              refcnt := buf.refcnt }, ?_, rfl, rfl⟩
    unfold dpdk_rx_one
    rw [if_pos hu, hl]
  · refine ⟨{ frees := 1, warns := 1, n_sent := 0, prepends := 1,
              refcnt := buf.refcnt }, ?_, rfl, rfl⟩
    simp [dpdk_rx_one, dpdk_prepend_rx_preamble, rte_pktmbuf_prepend, hu, hl, hh, he]
  · refine ⟨{ frees := 1, warns := 1, n_sent := 0, prepends := 0,
              refcnt := buf.refcnt }, ?_, rfl, rfl⟩
    unfold dpdk_rx_one
    rw [if_neg (by simp [hu]), if_neg (by simp [hb])]

/-- C6: the preamble prepend always succeeds when the pre-reserved headroom
holds it; its `len` is the buffer's packet length (after the prepend) minus
the preamble size, its checksum status is UNNECESSARY exactly when the
masked driver checksum flags equal GOOD, its hash field is zero; and in the
broadcast case the preamble is prepended exactly once however many
recipients there are. -/
theorem preamble_fields_and_prepended_once
    (hdrSize : Nat) (tab : List (EtherAddr × Proc)) (clients : List Proc)
    (env : RxEnv) (buf : Mbuf)
    (hh : hdrSize ≤ buf.headroom)
    (hb : is_broadcast_ether_addr buf.dst_addr = true)
    (hc : 0 < clients.length)
    (ht : ∀ p ∈ clients, 0 < p.thread_count) :
    (∃ hdr buf1, dpdk_prepend_rx_preamble hdrSize buf = some (hdr, buf1) ∧
       buf1.pkt_len = buf.pkt_len + hdrSize ∧
       hdr.len = buf1.pkt_len - hdrSize ∧
       (hdr.csum_type = ChecksumType.CHECKSUM_TYPE_UNNECESSARY ↔
         buf.ol_flags &&& PKT_RX_IP_CKSUM_MASK = PKT_RX_IP_CKSUM_GOOD) ∧
       hdr.rss_hash = 0) ∧
    (∃ eff, dpdk_rx_one hdrSize tab clients env buf = some eff ∧
       eff.prepends = 1) := by
  constructor
  · unfold dpdk_prepend_rx_preamble rte_pktmbuf_prepend
    rw [if_pos hh]
    refine ⟨_, _, rfl, rfl, rfl, ?_, rfl⟩
    by_cases hg : buf.ol_flags &&& PKT_RX_IP_CKSUM_MASK = PKT_RX_IP_CKSUM_GOOD
    · simp [hg]
    · simp [hg]
  · obtain ⟨n, hn⟩ := broadcast_fanout_isSome env clients 0 0 ht
    have hu := is_broadcast_not_unicast hb
    unfold dpdk_rx_one
    rw [if_neg (by simp [hu]), if_pos ⟨hb, hc⟩]
    unfold dpdk_prepend_rx_preamble rte_pktmbuf_prepend
    rw [if_pos hh]
    simp only [hn]
    by_cases h0 : n = 0
    · subst h0; rw [if_pos rfl]; exact ⟨_, rfl, rfl⟩
    · rw [if_neg h0]; exact ⟨_, rfl, rfl⟩

/-! ## Concrete inputs used by the witnesses -/

/-- Environment whose rx queues always accept. -/
def wEnvTrue : RxEnv := { rands := fun _ => 5, rxqOk := fun _ _ => true }

/-- A registered process with two threads. -/
def wProcA : Proc := ⟨1, ⟨[2, 0, 0, 0, 0, 1]⟩, 2⟩

/-- A process with zero threads. -/
def wProcZero : Proc := ⟨7, ⟨[8, 0, 0, 0, 0, 7]⟩, 0⟩

/-- A broadcast frame as received from the driver (refcount 1). -/
def wBcast : Mbuf := ⟨60, 0, 128, 1, ⟨[255, 255, 255, 255, 255, 255]⟩⟩

/-- A unicast frame addressed to `wProcA`'s MAC. -/
def wUni : Mbuf := ⟨60, 0, 128, 1, ⟨[2, 0, 0, 0, 0, 1]⟩⟩

theorem broadcast_refcount_matches_sends_witness :
    is_broadcast_ether_addr wBcast.dst_addr = true ∧ 0 < [wProcA].length ∧
      18 ≤ wBcast.headroom ∧ (∀ p ∈ [wProcA], 0 < p.thread_count) ∧
      wBcast.refcnt = 1 ∧
      (∃ eff, dpdk_rx_one 18 [] [wProcA] wEnvTrue wBcast = some eff ∧
        (eff.n_sent = 0 → eff.frees = 1) ∧
        (0 < eff.n_sent → eff.frees = 0 ∧ eff.refcnt = eff.n_sent)) :=
  ⟨by decide, by decide, by decide, by decide, by decide,
    broadcast_refcount_matches_sends 18 [] [wProcA] wEnvTrue wBcast (by decide)
      (by decide) (by decide) (by decide) (by decide)⟩

theorem broadcast_without_clients_dropped_witness :
    is_broadcast_ether_addr wBcast.dst_addr = true ∧
      dpdk_rx_one 18 [] [] wEnvTrue wBcast =
        some { frees := 1, warns := 1, n_sent := 0, prepends := 0,
               refcnt := wBcast.refcnt } :=
  ⟨by decide, broadcast_without_clients_dropped 18 [] wEnvTrue wBcast (by decide)⟩

theorem enqueue_thread_count_precondition_witness :
    (0 < wProcA.thread_count ∧
      (∃ t, dpdk_choose_thread (wEnvTrue.rands 0) wProcA.thread_count = some t ∧
        t < wProcA.thread_count ∧
        dpdk_enqueue_to_runtime wEnvTrue 0 wProcA =
          some (wEnvTrue.rxqOk wProcA.pid t))) ∧
    (wProcZero.thread_count = 0 ∧
      dpdk_choose_thread (wEnvTrue.rands 0) wProcZero.thread_count = none ∧
      dpdk_enqueue_to_runtime wEnvTrue 0 wProcZero = none) :=
  ⟨⟨by decide, (enqueue_thread_count_precondition wEnvTrue 0 wProcA).1 (by decide)⟩,
    ⟨rfl, (enqueue_thread_count_precondition wEnvTrue 0 wProcZero).2 rfl⟩⟩

theorem dropped_packet_freed_once_no_sends_witness :
    (is_unicast_ether_addr wUni.dst_addr = true ∧
      rte_hash_lookup_data [] wUni.dst_addr = none) ∧
    (∃ eff, dpdk_rx_one 18 [] [] wEnvTrue wUni = some eff ∧
      eff.frees = 1 ∧ eff.n_sent = 0) :=
  ⟨⟨by decide, rfl⟩,
    dropped_packet_freed_once_no_sends 18 [] [] wEnvTrue wUni
      (Or.inl ⟨by decide, rfl⟩)⟩

theorem preamble_fields_and_prepended_once_witness :
    18 ≤ wBcast.headroom ∧ is_broadcast_ether_addr wBcast.dst_addr = true ∧
      0 < [wProcA].length ∧ (∀ p ∈ [wProcA], 0 < p.thread_count) ∧
      ((∃ hdr buf1, dpdk_prepend_rx_preamble 18 wBcast = some (hdr, buf1) ∧
          buf1.pkt_len = wBcast.pkt_len + 18 ∧
          hdr.len = buf1.pkt_len - 18 ∧
          (hdr.csum_type = ChecksumType.CHECKSUM_TYPE_UNNECESSARY ↔
            wBcast.ol_flags &&& PKT_RX_IP_CKSUM_MASK = PKT_RX_IP_CKSUM_GOOD) ∧
          hdr.rss_hash = 0) ∧
        (∃ eff, dpdk_rx_one 18 [] [wProcA] wEnvTrue wBcast = some eff ∧
          eff.prepends = 1)) :=
  ⟨by decide, by decide, by decide, by decide,
    preamble_fields_and_prepended_once 18 [] [wProcA] wEnvTrue wBcast (by decide)
      (by decide) (by decide) (by decide)⟩

/-! ## C2: the control-drain batch bound -/

/-- Twenty pending ADD_CLIENT commands, the workload of the spec's
bounded-batch test. -/
def c2_chan : List LrpcMsg :=
  (List.range 20).map (fun k => { cmd := DATAPLANE_ADD_CLIENT, payload := ⟨k, ⟨[k]⟩, 1⟩ })

/-- C2 (evaluation at the failing input): with 20 commands pending, one
invocation of `dpdk_rx_control_lrpcs` leaves 11 messages in the channel —
it consumed NINE, not eight: `lrpc_recv` runs before the `n_rx <
CONTROL_BURST_SIZE` test, so the ninth message is popped and then discarded
when the bound check fails; only eight clients were added. -/
theorem control_drain_consumes_ninth_message :
    (dpdk_rx_control_lrpcs (fun _ => true) c2_chan dpdk_init_state).1.length = 11 ∧
    (dpdk_rx_control_lrpcs (fun _ => true) c2_chan dpdk_init_state).2.2 = 8 ∧
    (dpdk_rx_control_lrpcs (fun _ => true) c2_chan dpdk_init_state).2.1.clients.length = 8 := by
  decide

/-! ## C8: the clients array capacity precondition -/

/-- C8: `dpdk_add_client` performs no capacity check; under the
precondition that the registry is not at its fixed capacity of
`IOKERNEL_MAX_PROC = 128` entries, the append writes within the bounds of
the array at index `nr_clients` and increases the count by exactly one;
at capacity the write is out of bounds (undefined behavior). -/
theorem add_client_store_capacity (a : ClientArray) (p : Proc) :
    (∀ h : a.nr_clients < IOKERNEL_MAX_PROC,
      ∃ a1, dpdk_add_client_store a p = some a1 ∧
        a1.nr_clients = a.nr_clients + 1 ∧
        a1.slots ⟨a.nr_clients, h⟩ = some p ∧
        ∀ i : Fin IOKERNEL_MAX_PROC, i ≠ ⟨a.nr_clients, h⟩ → a1.slots i = a.slots i) ∧
    (IOKERNEL_MAX_PROC ≤ a.nr_clients → dpdk_add_client_store a p = none) := by
  constructor
  · intro h
    refine ⟨{ slots := fun i => if i = ⟨a.nr_clients, h⟩ then some p else a.slots i,
              nr_clients := a.nr_clients + 1 }, ?_, rfl, ?_, ?_⟩
    · unfold dpdk_add_client_store
      rw [dif_pos h]
    · simp
    · intro i hi
      simp [hi]
  · intro h
    unfold dpdk_add_client_store
    rw [dif_neg (by omega)]

/-- The empty clients array. -/
def wEmptyArray : ClientArray := ⟨fun _ => none, 0⟩

/-- A clients array whose fill count has reached capacity. -/
def wFullArray : ClientArray := ⟨fun _ => none, 128⟩

theorem add_client_store_capacity_witness :
    (wEmptyArray.nr_clients < IOKERNEL_MAX_PROC ∧
      ∃ a1, dpdk_add_client_store wEmptyArray wProcA = some a1 ∧
        a1.nr_clients = wEmptyArray.nr_clients + 1 ∧
        a1.slots ⟨wEmptyArray.nr_clients, by decide⟩ = some wProcA ∧
        ∀ i : Fin IOKERNEL_MAX_PROC, i ≠ ⟨wEmptyArray.nr_clients, by decide⟩ →
          a1.slots i = wEmptyArray.slots i) ∧
    (IOKERNEL_MAX_PROC ≤ wFullArray.nr_clients ∧
      dpdk_add_client_store wFullArray wProcA = none) :=
  ⟨⟨by decide, (add_client_store_capacity wEmptyArray wProcA).1 (by decide)⟩,
    ⟨by decide, (add_client_store_capacity wFullArray wProcA).2 (by decide)⟩⟩

/-! ## C7: pool creation, capacity check and cleanup -/

lemma le_ceil_mul (n k : Nat) (hk : 0 < k) : n ≤ (n + k - 1) / k * k := by
  cases n with
  | zero => exact Nat.zero_le _
  | succ w =>
    have h1 : w + 1 + k - 1 = w + k := by omega
    rw [h1, Nat.add_div_right w hk]
    have h3 : w < (w / k + 1) * k := (Nat.div_lt_iff_lt_mul hk).mp (Nat.lt_succ_self _)
    omega

lemma le_RTE_ALIGN (v a : Nat) (ha : 0 < a) : v ≤ RTE_ALIGN v a :=
  le_ceil_mul v a ha

lemma mul_le_xmem_size (elt_num total pg_shift : Nat) (hp : pg_shift ≠ 0) :
    total * elt_num ≤ rte_mempool_xmem_size elt_num total pg_shift := by
  unfold rte_mempool_xmem_size
  by_cases h0 : total = 0
  · simp [h0]
  · rw [if_neg h0, if_neg hp]
    have hpg : 0 < 2 ^ pg_shift := Nat.pos_pow_of_pos _ (by omega)
    by_cases hopp : 2 ^ pg_shift / total = 0
    · simp only [hopp, if_pos rfl]
      exact Nat.mul_le_mul_right _ (le_RTE_ALIGN total _ hpg)
    · simp only [hopp, if_neg hopp]
      have hk : 0 < 2 ^ pg_shift / total := Nat.pos_of_ne_zero hopp
      calc total * elt_num
          = elt_num * total := Nat.mul_comm _ _
        _ ≤ (elt_num + 2 ^ pg_shift / total - 1) / (2 ^ pg_shift / total) *
              (2 ^ pg_shift / total) * total :=
            Nat.mul_le_mul_right _ (le_ceil_mul elt_num _ hk)
        _ = (elt_num + 2 ^ pg_shift / total - 1) / (2 ^ pg_shift / total) *
              (2 ^ pg_shift / total * total) := Nat.mul_assoc _ _ _
        _ ≤ (elt_num + 2 ^ pg_shift / total - 1) / (2 ^ pg_shift / total) *
              2 ^ pg_shift := Nat.mul_le_mul_left _ (Nat.div_mul_le_self _ _)

/-- C7: pool creation fails whenever the total element size times the
buffer count exceeds the reserved shared-memory capacity (the
page-packed requirement can only be larger), and on every failure path the
shared region is unmapped as many times as it was mapped and a created pool
object is destroyed — no mapping or pool leaks. -/
theorem pool_create_capacity_check_and_cleanup (env : PoolEnv) (pp : PoolParams) :
    (pp.shm_capacity < pool_total_elt_sz pp * pp.n →
      (dpdk_pktmbuf_pool_create_in_shm env pp).ok = false) ∧
    ((dpdk_pktmbuf_pool_create_in_shm env pp).ok = false →
      (dpdk_pktmbuf_pool_create_in_shm env pp).unmaps =
        (dpdk_pktmbuf_pool_create_in_shm env pp).maps ∧
      ((dpdk_pktmbuf_pool_create_in_shm env pp).pool_created = true →
        (dpdk_pktmbuf_pool_create_in_shm env pp).pool_freed = true)) := by
  constructor
  · intro hcap
    have hlen := mul_le_xmem_size pp.n (pool_total_elt_sz pp) 21 (by omega)
    unfold dpdk_pktmbuf_pool_create_in_shm
    dsimp only
    split_ifs with h1 h2 h3 h4 h5 h6 <;>
      first
        | rfl
        | exact absurd (Nat.lt_of_lt_of_le hcap hlen) h4
  · unfold dpdk_pktmbuf_pool_create_in_shm
    dsimp only
    split_ifs <;> simp

/-- Oracle in which every external call succeeds. -/
def wPoolEnv : PoolEnv := ⟨true, true, true, true⟩

/-- Pool parameters whose footprint exceeds a 1 MiB reserved region. -/
def wPoolParams : PoolParams := ⟨8191, 0, 2176, 128, 64, 0, 2 ^ 20⟩

theorem pool_create_capacity_check_and_cleanup_witness :
    wPoolParams.shm_capacity < pool_total_elt_sz wPoolParams * wPoolParams.n ∧
    (dpdk_pktmbuf_pool_create_in_shm wPoolEnv wPoolParams).ok = false ∧
    ((dpdk_pktmbuf_pool_create_in_shm wPoolEnv wPoolParams).unmaps =
      (dpdk_pktmbuf_pool_create_in_shm wPoolEnv wPoolParams).maps ∧
      ((dpdk_pktmbuf_pool_create_in_shm wPoolEnv wPoolParams).pool_created = true →
        (dpdk_pktmbuf_pool_create_in_shm wPoolEnv wPoolParams).pool_freed = true)) :=
  ⟨by decide,
    (pool_create_capacity_check_and_cleanup wPoolEnv wPoolParams).1 (by decide),
    (pool_create_capacity_check_and_cleanup wPoolEnv wPoolParams).2
      ((pool_create_capacity_check_and_cleanup wPoolEnv wPoolParams).1 (by decide))⟩

/-! ## Helper lemmas: the client scan and swap-remove -/

lemma findClientIdx_le (cl : List Proc) (p : Proc) : findClientIdx cl p ≤ cl.length := by
  induction cl with
  | nil => exact Nat.le_refl 0
  | cons q rest ih =>
    unfold findClientIdx
    by_cases h : q = p
    · simp [h]
    · simpa [h] using ih

lemma findClientIdx_eq_length_iff (cl : List Proc) (p : Proc) :
    findClientIdx cl p = cl.length ↔ p ∉ cl := by
  induction cl with
  | nil => simp [findClientIdx]
  | cons q rest ih =>
    unfold findClientIdx
    by_cases h : q = p
    · simp [h]
    · simp only [if_neg h, List.length_cons, Nat.add_right_cancel_iff, ih,
        List.mem_cons]
      constructor
      · intro hnm hor
        rcases hor with h1 | h1
        · exact h h1.symm
        · exact hnm h1
      · intro hnm hmem
        exact hnm (Or.inr hmem)

lemma findClientIdx_lt_of_mem {cl : List Proc} {p : Proc} (h : p ∈ cl) :
    findClientIdx cl p < cl.length :=
  Nat.lt_of_le_of_ne (findClientIdx_le cl p)
    (fun he => absurd h ((findClientIdx_eq_length_iff cl p).mp he))

lemma erase_findClientIdx_perm (cl : List Proc) (p : Proc) (h : p ∈ cl) :
    (cl.erase p).Perm (cl.eraseIdx (findClientIdx cl p)) := by
  induction cl with
  | nil => cases h
  | cons q rest ih =>
    by_cases hq : q = p
    · subst hq
      simp [findClientIdx, List.erase_cons_head]
    · have hmem : p ∈ rest := by
        rcases List.mem_cons.mp h with h1 | h1
        · exact absurd h1.symm hq
        · exact h1
      have hidx : findClientIdx (q :: rest) p = findClientIdx rest p + 1 := by
        simp [findClientIdx, hq]
      rw [hidx, List.eraseIdx_cons_succ, List.erase_cons_tail (by simp [hq])]
      exact List.Perm.cons q (ih hmem)

lemma swapRemove_perm : ∀ (cl : List Proc) (i : Nat), i < cl.length →
    (swapRemove cl i).Perm (cl.eraseIdx i) := by
  intro cl
  induction cl with
  | nil => intro i hi; simp at hi
  | cons q rest ih =>
    intro i hi
    cases rest with
    | nil =>
      cases i with
      | zero => simp [swapRemove]
      | succ j => simp at hi
    | cons r rest2 =>
      have hne : (r :: rest2) ≠ [] := List.cons_ne_nil r rest2
      cases i with
      | zero =>
        unfold swapRemove
        rw [List.getLast?_cons_cons, List.getLast?_eq_getLast _ hne]
        simp only [List.set_cons_zero, List.eraseIdx_cons_zero,
          List.dropLast_cons_of_ne_nil hne]
        conv_rhs => rw [← List.dropLast_append_getLast hne]
        exact (List.perm_append_singleton _ _).symm
      | succ j =>
        have hj : j < (r :: rest2).length := by
          simpa using hi
        unfold swapRemove
        rw [List.getLast?_cons_cons, List.getLast?_eq_getLast _ hne]
        simp only [List.set_cons_succ, List.eraseIdx_cons_succ]
        have hsetne : (r :: rest2).set j ((r :: rest2).getLast hne) ≠ [] :=
          List.ne_nil_of_length_pos (by simp)
        rw [List.dropLast_cons_of_ne_nil hsetne]
        refine List.Perm.cons q ?_
        have hrec := ih j hj
        unfold swapRemove at hrec
        rw [List.getLast?_eq_getLast _ hne] at hrec
        exact hrec

/-! ## Helper lemmas: the hash table's key set -/

lemma lookup_isSome_iff_mem_keys (h : List (EtherAddr × Proc)) (m : EtherAddr) :
    (rte_hash_lookup_data h m).isSome = true ↔ m ∈ h.map Prod.fst := by
  induction h with
  | nil => simp [rte_hash_lookup_data]
  | cons kv rest ih =>
    obtain ⟨k, v⟩ := kv
    unfold rte_hash_lookup_data
    by_cases hk : k = m
    · simp [hk]
    · simpa [hk, Ne.symm hk] using ih

lemma add_key_success_of_not_mem (h : List (EtherAddr × Proc)) (k : EtherAddr)
    (v : Proc) (alloc_ok : Bool) (hk : k ∉ h.map Prod.fst)
    (hs : (rte_hash_add_key_data h k v alloc_ok).2 = true) :
    (rte_hash_add_key_data h k v alloc_ok).1 = h ++ [(k, v)] := by
  have hl : ¬ (rte_hash_lookup_data h k).isSome = true := fun hx =>
    hk ((lookup_isSome_iff_mem_keys h k).mp hx)
  unfold rte_hash_add_key_data at hs ⊢
  rw [if_neg hl] at hs ⊢
  by_cases hc : alloc_ok = true ∧ h.length < MAC_TO_PROC_ENTRIES
  · rw [if_pos hc]
  · rw [if_neg hc] at hs
    exact absurd hs (by simp)

lemma del_key_map_fst (h : List (EtherAddr × Proc)) (k : EtherAddr) :
    (rte_hash_del_key h k).map Prod.fst = (h.map Prod.fst).erase k := by
  induction h with
  | nil => rfl
  | cons kv rest ih =>
    obtain ⟨k1, v1⟩ := kv
    unfold rte_hash_del_key
    by_cases hk : k1 = k
    · subst hk
      simp [List.erase_cons_head]
    · rw [if_neg hk]
      simp only [List.map_cons]
      rw [List.erase_cons_tail (by simp [hk]), ih]

/-- Erasing a process from the client list then taking MAC addresses is a
permutation of taking MAC addresses then erasing that process's MAC. -/
lemma map_mac_erase_perm (cl : List Proc) (p : Proc) (h : p ∈ cl) :
    ((cl.erase p).map Proc.mac).Perm ((cl.map Proc.mac).erase p.mac) := by
  rw [← Multiset.coe_eq_coe, ← Multiset.coe_erase]
  show Multiset.map Proc.mac (↑(cl.erase p)) =
    (Multiset.map Proc.mac (cl : Multiset Proc)).erase p.mac
  rw [← Multiset.coe_erase]
  exact Multiset.map_erase_of_mem _ _ (by simpa using h)

/-! ## The registry mirror invariant -/

/-- The key multiset of the MAC hash table matches the MAC addresses of the
registered clients one for one. -/
def RegInv (s : DpState) : Prop :=
  (s.mac_to_proc.map Prod.fst).Perm (s.clients.map Proc.mac)

lemma regInv_add (s : DpState) (p : Proc) (alloc_ok : Bool)
    (hfresh : p.mac ∉ s.clients.map Proc.mac)
    (hsucc : (rte_hash_add_key_data s.mac_to_proc p.mac p alloc_ok).2 = true)
    (hinv : RegInv s) :
    RegInv (dpdk_add_client s p alloc_ok) := by
  have hk : p.mac ∉ s.mac_to_proc.map Prod.fst := fun hm =>
    hfresh (hinv.mem_iff.mp hm)
  unfold RegInv dpdk_add_client
  dsimp only
  rw [add_key_success_of_not_mem _ _ _ _ hk hsucc]
  simp only [List.map_append, List.map_cons, List.map_nil]
  exact hinv.append_right _

lemma regInv_remove (s : DpState) (p : Proc) (hinv : RegInv s) :
    RegInv (dpdk_remove_client s p) := by
  unfold dpdk_remove_client
  dsimp only
  by_cases habs : findClientIdx s.clients p = s.clients.length
  · rw [if_pos habs]
    exact hinv
  · rw [if_neg habs]
    have hmem : p ∈ s.clients := by
      by_contra hnm
      exact habs ((findClientIdx_eq_length_iff _ _).mpr hnm)
    have hlt : findClientIdx s.clients p < s.clients.length :=
      findClientIdx_lt_of_mem hmem
    unfold RegInv
    dsimp only
    rw [del_key_map_fst]
    have h1 : ((swapRemove s.clients (findClientIdx s.clients p)).map Proc.mac).Perm
        ((s.clients.eraseIdx (findClientIdx s.clients p)).map Proc.mac) :=
      (swapRemove_perm _ _ hlt).map _
    have h2 : ((s.clients.erase p).map Proc.mac).Perm
        ((s.clients.eraseIdx (findClientIdx s.clients p)).map Proc.mac) :=
      (erase_findClientIdx_perm _ _ hmem).map _
    have h3 := map_mac_erase_perm s.clients p hmem
    exact ((hinv.erase p.mac).trans h3.symm).trans (h2.trans h1.symm)

lemma regInv_exec : ∀ (ops : List RegOp) (s : DpState), RegInv s →
    freshAdds s ops = true → RegInv (regExec s ops) := by
  intro ops
  induction ops with
  | nil => exact fun s h _ => h
  | cons op rest ih =>
    intro s hinv hfresh
    cases op with
    | addClient p alloc_ok =>
      simp only [freshAdds, Bool.and_eq_true, decide_eq_true_eq] at hfresh
      exact ih _ (regInv_add s p alloc_ok hfresh.1.1 hfresh.1.2 hinv) hfresh.2
    | removeClient p =>
      simp only [freshAdds, Bool.and_eq_true] at hfresh
      exact ih _ (regInv_remove s p hinv) hfresh.2

/-- C3 (amended): for every sequence of add/remove operations in which each
added client carries a hardware address distinct from all currently
registered ones AND each add's hash insert succeeds (entry budget has room,
no internal allocation failure), the key set of the MAC hash table is at
every point exactly the set of MAC addresses of the processes in the
client list. -/
theorem registry_mirror_of_fresh_adds (ops : List RegOp)
    (h : freshAdds dpdk_init_state ops = true) :
    ∀ m : EtherAddr,
      ((rte_hash_lookup_data (regExec dpdk_init_state ops).mac_to_proc m).isSome = true ↔
        m ∈ (regExec dpdk_init_state ops).clients.map Proc.mac) := by
  have hinv : RegInv (regExec dpdk_init_state ops) :=
    regInv_exec ops dpdk_init_state (List.Perm.refl []) h
  intro m
  rw [lookup_isSome_iff_mem_keys]
  exact hinv.mem_iff

/-- First client of the C3 counterexample. -/
def c3_p1 : Proc := ⟨1, ⟨[2, 2, 2, 2, 2, 2]⟩, 1⟩

/-- Second client of the C3 counterexample: a different process descriptor
carrying the same hardware address. -/
def c3_p2 : Proc := ⟨2, ⟨[2, 2, 2, 2, 2, 2]⟩, 1⟩

/-- Add two clients sharing one MAC (both inserts succeed), then remove the
first. -/
def c3_ops : List RegOp :=
  [RegOp.addClient c3_p1 true, RegOp.addClient c3_p2 true,
    RegOp.removeClient c3_p1]

/-- Two distinct clients with distinct MAC addresses. -/
def c3_q1 : Proc := ⟨1, ⟨[2, 0, 0, 0, 0, 1]⟩, 1⟩

/-- See `c3_q1`. -/
def c3_q2 : Proc := ⟨2, ⟨[4, 0, 0, 0, 0, 2]⟩, 1⟩

/-- One add with a fresh address whose hash insert reports an internal
allocation failure (dpdk.c lines 392-394, spec section 9). -/
def c3_ops_insert_fail : List RegOp := [RegOp.addClient c3_q1 false]

/-- C3 (counterexample): the unrestricted mirror claim fails on two
independent failure modes. First, after `add p1; add p2; remove p1` where
`p1` and `p2` share a MAC address, the client list still holds `p2` but the
hash table no longer has its key — the removal deleted the shared key while
a process carrying that address stayed registered. Second, when an add's
hash insert fails, the client is appended to the list but its key never
enters the table. -/
theorem registry_mirror_counterexample :
    (¬ (∀ m : EtherAddr,
      ((rte_hash_lookup_data (regExec dpdk_init_state c3_ops).mac_to_proc m).isSome = true ↔
        m ∈ (regExec dpdk_init_state c3_ops).clients.map Proc.mac))) ∧
    (¬ (∀ m : EtherAddr,
      ((rte_hash_lookup_data
          (regExec dpdk_init_state c3_ops_insert_fail).mac_to_proc m).isSome = true ↔
        m ∈ (regExec dpdk_init_state c3_ops_insert_fail).clients.map Proc.mac))) :=
  ⟨fun h => absurd ((h ⟨[2, 2, 2, 2, 2, 2]⟩).mpr (by decide)) (by decide),
    fun h => absurd ((h ⟨[2, 0, 0, 0, 0, 1]⟩).mpr (by decide)) (by decide)⟩

/-- A fresh-address, successful-insert workload for the amended C3
theorem. -/
def c3_ops_fresh : List RegOp :=
  [RegOp.addClient c3_q1 true, RegOp.addClient c3_q2 true,
    RegOp.removeClient c3_q1]

theorem registry_mirror_of_fresh_adds_witness :
    freshAdds dpdk_init_state c3_ops_fresh = true ∧
    ∀ m : EtherAddr,
      ((rte_hash_lookup_data (regExec dpdk_init_state c3_ops_fresh).mac_to_proc m).isSome = true ↔
        m ∈ (regExec dpdk_init_state c3_ops_fresh).clients.map Proc.mac) :=
  ⟨by decide, registry_mirror_of_fresh_adds c3_ops_fresh (by decide)⟩

/-! ## C4: removal of an absent client -/

lemma remove_client_not_mem_eq (s : DpState) (p : Proc) (h : p ∉ s.clients) :
    dpdk_remove_client s p = { s with warns := s.warns + 1 } := by
  unfold dpdk_remove_client
  dsimp only
  rw [if_pos ((findClientIdx_eq_length_iff _ _).mpr h)]

lemma not_mem_after_remove (s : DpState) (p : Proc)
    (hc : s.clients.count p ≤ 1) : p ∉ (dpdk_remove_client s p).clients := by
  by_cases hmem : p ∈ s.clients
  · have hlt : findClientIdx s.clients p < s.clients.length :=
      findClientIdx_lt_of_mem hmem
    unfold dpdk_remove_client
    dsimp only
    rw [if_neg (Nat.ne_of_lt hlt)]
    intro hmem'
    have h1 : (swapRemove s.clients (findClientIdx s.clients p)).count p =
        (s.clients.eraseIdx (findClientIdx s.clients p)).count p :=
      (swapRemove_perm _ _ hlt).count_eq p
    have h2 : (s.clients.erase p).count p =
        (s.clients.eraseIdx (findClientIdx s.clients p)).count p :=
      (erase_findClientIdx_perm _ _ hmem).count_eq p
    have h3 : (s.clients.erase p).count p = s.clients.count p - 1 :=
      List.count_erase_self p s.clients
    have h4 : 1 ≤ s.clients.count p := List.count_pos_iff.mpr hmem
    have h5 : 0 < (swapRemove s.clients (findClientIdx s.clients p)).count p :=
      List.count_pos_iff.mpr hmem'
    omega
  · rw [remove_client_not_mem_eq s p hmem]
    exact hmem

/-- C4: removing a process absent from the client registry is a no-op apart
from one warning — the client list, the hash table, and the control-channel
notifications are untouched; hence removing a (singly registered) process
twice leaves the registries unchanged by the second call. -/
theorem remove_absent_client_noop (s : DpState) (p : Proc) :
    (p ∉ s.clients → dpdk_remove_client s p = { s with warns := s.warns + 1 }) ∧
    (s.clients.count p ≤ 1 →
      dpdk_remove_client (dpdk_remove_client s p) p =
        { dpdk_remove_client s p with
            warns := (dpdk_remove_client s p).warns + 1 }) :=
  ⟨remove_client_not_mem_eq s p,
    fun hc => remove_client_not_mem_eq _ p (not_mem_after_remove s p hc)⟩

/-- A registry holding the single client `wProcA`. -/
def wRegState : DpState :=
  { clients := [wProcA], mac_to_proc := [(⟨[2, 0, 0, 0, 0, 1]⟩, wProcA)],
    removals_sent := [], warns := 0, errs := 0 }

theorem remove_absent_client_noop_witness :
    (wProcZero ∉ wRegState.clients ∧
      dpdk_remove_client wRegState wProcZero =
        { wRegState with warns := wRegState.warns + 1 }) ∧
    (wRegState.clients.count wProcA ≤ 1 ∧
      dpdk_remove_client (dpdk_remove_client wRegState wProcA) wProcA =
        { dpdk_remove_client wRegState wProcA with
            warns := (dpdk_remove_client wRegState wProcA).warns + 1 }) :=
  ⟨⟨by decide, (remove_absent_client_noop wRegState wProcZero).1 (by decide)⟩,
    ⟨by decide, (remove_absent_client_noop wRegState wProcA).2 (by decide)⟩⟩
